import Mathlib

/-!
Verification of the template-sync engine (`sync_project_template/sync.py`).

The filesystem is shallowly embedded: a directory is an association list of
named entries, a regular file carries its byte content and a modification
time (the only metadata the engine touches, via `shutil.copy2`).  The source
tree and the target tree are modelled as the two entries found at the
resolved `source_path` and `target_path`; they are assumed to denote
distinct locations on disk, as in every intended invocation.  Relative sync
paths are single path components, which covers every configured
`SYNC_TARGETS` entry (tasks, justfile, .gitignore, .python-version).
Python exceptions that the engine does not catch (e.g. `shutil.rmtree` on a
regular file, `open` on a directory) are modelled as `Except.error ()`:
they abort the session, exactly as an uncaught exception does.
-/

set_option autoImplicit false

namespace SyncPT

/-- A filesystem entry: a regular file (byte content plus modification time)
or a directory given by its named entries. -/
inductive FSEntry where
  | file (content : List Nat) (mtime : Nat)
  | dir (entries : List (String × FSEntry))
deriving Repr

/-- Entries of a directory, keyed by name. -/
abbrev Entries := List (String × FSEntry)

/-- Look up the entry with the given name (directories have unique names;
the model reads the first binding, mirroring a real directory listing). -/
def lookupE : Entries → String → Option FSEntry
  | [], _ => none
  | (m, e) :: rest, n => if m = n then some e else lookupE rest n

/-- Create or replace the entry with the given name.  A real directory is
unordered, so replacing in place is an equivalent rendering of the
Python delete-then-recreate. -/
def insertE : Entries → String → FSEntry → Entries
  | [], n, e => [(n, e)]
  | (m, x) :: rest, n, e => if m = n then (n, e) :: rest else (m, x) :: insertE rest n e

mutual

/-- Number of descendants of an entry, files and subdirectories combined,
the root excluded: the length of the Python rglob listing. -/
def rglobCount : FSEntry → Nat
  | .file _ _ => 0
  | .dir es => rglobCountList es

/-- Sum, over a list of entries, of one per entry plus its descendants. -/
def rglobCountList : List (String × FSEntry) → Nat
  | [] => 0
  | (_, e) :: rest => 1 + rglobCount e + rglobCountList rest

end

/-- Follow a relative path (list of components) below an entry. -/
def entryAt : FSEntry → List String → Option FSEntry
  | e, [] => some e
  | .file _ _, _ :: _ => none
  | .dir [], _ :: _ => none
  | .dir ((m, e) :: rest), n :: p =>
      if m = n then entryAt e p else entryAt (.dir rest) (n :: p)

/-- The kinds of `SyncError` raised by `TemplateSyncer.validate_paths`,
in the order its checks appear in the source. -/
inductive SyncErrorKind where
  | sourceNotFound
  | sourceNotDirectory
  | sourceInvalidTemplate
  | targetNotFound
  | targetNotDirectory
  | targetNotGitRepo
deriving DecidableEq, Repr

/-- `TemplateSyncer.validate_paths`: the if-chain of the source, returning
the kind of the first `SyncError` raised, or `none` on success.
`src?` / `tgt?` are what exists at the resolved source / target path
(`none` = nothing exists there); `Path.exists` is `Option.isSome`,
`Path.is_dir` is matching the `dir` constructor, and the `justfile` and
`.git` checks are `exists()` on a child entry of any kind, as in the code. -/
def validate_paths (src? tgt? : Option FSEntry) : Option SyncErrorKind :=
  match src? with
  | none => some .sourceNotFound
  | some (.file _ _) => some .sourceNotDirectory
  | some (.dir ss) =>
    if (lookupE ss "justfile").isNone then some .sourceInvalidTemplate
    else
      match tgt? with
      | none => some .targetNotFound
      | some (.file _ _) => some .targetNotDirectory
      | some (.dir ts) =>
        if (lookupE ts ".git").isNone then some .targetNotGitRepo
        else none

/-- The ChangeRecord string appended by `sync_directory`: the relative
path, a slash, and in parentheses the item count of the freshly copied
target, as formatted by the Python f-string. -/
def dirRecord (n : String) (d : Entries) : String :=
  n ++ "/ (directory, " ++ toString (rglobCount (.dir d)) ++ " items)"

/-- `TemplateSyncer.sync_directory`.  `ss` / `ts` are the entries of the
source / target root directories, `changes` is `self.changes`.  If the
source entry is absent: warn and skip.  Otherwise `shutil.rmtree` the
target entry if present (raising on a regular file), then
`shutil.copytree` the source subtree (raising if it is not a directory)
and append the directory ChangeRecord. -/
def sync_directory (ss ts : Entries) (changes : List String) (name : String) :
    Except Unit (Entries × List String) :=
  match lookupE ss name with
  | none => .ok (ts, changes)
  | some se =>
    match lookupE ts name with
    | some (.file _ _) => .error ()
    | _ =>
      match se with
      | .file _ _ => .error ()
      | .dir d => .ok (insertE ts name (.dir d), changes ++ [dirRecord name d])

/-- `TemplateSyncer.sync_file`.  If the source entry is absent: warn and
skip.  If a target entry exists, open both files and compare bytes
(`open` raises on a directory on either side); identical content returns
without writing or recording.  Otherwise `shutil.copy2` copies content and
metadata (modification time) and the relative path is recorded. -/
def sync_file (ss ts : Entries) (changes : List String) (name : String) :
    Except Unit (Entries × List String) :=
  match lookupE ss name with
  | none => .ok (ts, changes)
  | some se =>
    match lookupE ts name with
    | some te =>
      match se with
      | .dir _ => .error ()
      | .file sb sm =>
        match te with
        | .dir _ => .error ()
        | .file tb _ =>
          if sb = tb then .ok (ts, changes)
          else .ok (insertE ts name (.file sb sm), changes ++ [name])
    | none =>
      match se with
      | .dir _ => .error ()
      | .file sb sm => .ok (insertE ts name (.file sb sm), changes ++ [name])

/-- The two kinds in the `SYNC_TARGETS` table. -/
inductive TargetKind where
  | directory
  | file
deriving DecidableEq, Repr

/-- `TemplateSyncer.SYNC_TARGETS`, in declaration order (the descriptions
only feed log lines and are omitted). -/
def SYNC_TARGETS : List (String × TargetKind) :=
  [("tasks", .directory), ("justfile", .file),
   (".gitignore", .file), (".python-version", .file)]

/-- One iteration of the `sync_all` loop: dispatch on the configured kind. -/
def syncStep (ss : Entries) (st : Entries × List String) (t : String × TargetKind) :
    Except Unit (Entries × List String) :=
  match t.2 with
  | .directory => sync_directory ss st.1 st.2 t.1
  | .file => sync_file ss st.1 st.2 t.1

/-- `TemplateSyncer.sync_all`: fold the dispatch over `SYNC_TARGETS` in
declaration order, threading the target tree and the accumulated
`self.changes` list. -/
def sync_all (ss ts : Entries) (changes : List String) :
    Except Unit (Entries × List String) :=
  SYNC_TARGETS.foldlM (syncStep ss) (ts, changes)

/-- The commit message built by `TemplateSyncer.git_commit`: the f-string
summary followed by the newline-joined bullet list of the changes. -/
def commit_message (changes : List String) : String :=
  "Sync with latest project template\n\nSynced the following files and directories:\n" ++
    String.intercalate "\n" (changes.map (fun c => "  • " ++ c)) ++
    "\n\nThis commit updates the project infrastructure to match the latest\ntemplate version, including task definitions, configuration files,\nand development tools."

/-- Outcome of `TemplateSyncer.git_commit`: the returned boolean, the
message handed to the external commit command (`none` when no command is
invoked), and the log lines printed by the dry-run preview. -/
structure CommitResult where
  success : Bool
  invoked : Option String
  printed : List String
deriving DecidableEq, Repr

/-- `TemplateSyncer.git_commit`.  `gitOk` models the outcome of the
external `git commit` process: `true` for exit code 0, `false` for a
nonzero exit, a timeout or a missing tool (all of which the code turns
into a `False` return). -/
def git_commit (changes : List String) (dry_run gitOk : Bool) : CommitResult :=
  if changes.isEmpty then ⟨false, none, []⟩
  else if dry_run then
    ⟨true, none,
      "DRY RUN: Would create commit with the following changes:" ::
        changes.map (fun c => "  • " ++ c)⟩
  else ⟨gitOk, some (commit_message changes), []⟩

/-- The log lines of `TemplateSyncer.print_summary`. -/
def print_summary (changes : List String) (dry_run : Bool) : List String :=
  if changes.isEmpty then ["No changes needed - project is already up to date!"]
  else
    ("Successfully synced the following:" :: changes.map (fun c => "  • " ++ c)) ++
      (if dry_run then ["DRY RUN: No changes were actually made"]
       else ["Changes committed to git"])

/-- `TemplateSyncer.run`: validate (a `SyncError` is caught and turns into
`False` with nothing mutated), then sync all targets (an uncaught
filesystem exception propagates out of `run` as `.error`), stage
(best-effort, no modelled effect), commit, and return the commit outcome.
The result carries the final target tree, `self.changes` and the boolean.
`check_git_clean` is advisory-only and touches no modelled state. -/
def run (src? tgt? : Option FSEntry) (dry_run gitOk : Bool) :
    Except Unit (Option FSEntry × List String × Bool) :=
  match validate_paths src? tgt? with
  | some _ => .ok (tgt?, [], false)
  | none =>
    match src?, tgt? with
    | some (.dir ss), some (.dir ts) =>
      (match sync_all ss ts [] with
       | .error e => .error e
       | .ok (ts', changes) =>
         .ok (some (.dir ts'), changes, (git_commit changes dry_run gitOk).success))
    | _, _ => .error ()

/-- `main`: `0 if success else 1` around `run` (argument parsing aside). -/
def mainExitCode (src? tgt? : Option FSEntry) (dry_run gitOk : Bool) :
    Except Unit Nat :=
  match run src? tgt? dry_run gitOk with
  | .error e => .error e
  | .ok (_, _, s) => .ok (if s then 0 else 1)

/-- Existence check of the validation contract (spec, section 4.1):
the path exists.  Stated over the entry found at the path. -/
def specExists (e? : Option FSEntry) : Bool := e?.isSome

/-- Directory check of the validation contract (spec, section 4.1):
the path is a directory. -/
def specIsDir : Option FSEntry → Bool
  | some (.dir _) => true
  | _ => false

/-- Check 3 of the validation contract (spec, section 4.1): the source
contains the task-runner configuration file (`justfile`) at its root. -/
def specSourceHasTaskRunnerConfig : Option FSEntry → Bool
  | some (.dir es) => (lookupE es "justfile").isSome
  | _ => false

/-- Check 6 of the validation contract (spec, section 4.1): the target
contains version-control metadata (a `.git` entry). -/
def specTargetHasVCSMetadata : Option FSEntry → Bool
  | some (.dir es) => (lookupE es ".git").isSome
  | _ => false

/-- Modelled from the spec, section 4.1: the six checks in their fixed
order, short-circuiting on the first failure.  To be compared with
`validate_paths`, which is translated from the source. -/
def spec_first_failure (src? tgt? : Option FSEntry) : Option SyncErrorKind :=
  if !specExists src? then some .sourceNotFound
  else if !specIsDir src? then some .sourceNotDirectory
  else if !specSourceHasTaskRunnerConfig src? then some .sourceInvalidTemplate
  else if !specExists tgt? then some .targetNotFound
  else if !specIsDir tgt? then some .targetNotDirectory
  else if !specTargetHasVCSMetadata tgt? then some .targetNotGitRepo
  else none

/-- The ChangeRecords that a second `sync_all` run against an unchanged
source appends beyond the first run: file targets re-record nothing, but a
directory target whose source subtree exists re-records on every run. -/
def secondRunRecords (ss : Entries) : List String :=
  match lookupE ss "tasks" with
  | some (.dir d) => [dirRecord "tasks" d]
  | _ => []

/-- A concrete valid source: a `justfile` and a `tasks` directory holding
one task file. -/
def srcA : Entries :=
  [("justfile", .file [35, 32] 0),
   ("tasks", .dir [("test.just", .file [116] 0)])]

/-- A concrete valid target: a fresh repository, `.git` only. -/
def tgtA : Entries := [(".git", .dir [])]

/-- A concrete valid source with no `tasks` directory. -/
def srcB : Entries := [("justfile", .file [35] 0)]

/-- A concrete target already in sync with `srcB`: same `justfile` bytes,
different modification time. -/
def tgtB : Entries := [(".git", .dir []), ("justfile", .file [35] 7)]

/-- A concrete target whose `.git` entry is a regular file, as in a git
worktree or submodule checkout. -/
def tgtGitFile : Entries := [(".git", .file [103] 0), ("justfile", .file [9] 0)]

/-- The target tree obtained by a full sync of `srcA` onto `tgtA`. -/
def tgtA1 : Entries :=
  [(".git", .dir []),
   ("tasks", .dir [("test.just", .file [116] 0)]),
   ("justfile", .file [35, 32] 0)]

@[simp]
theorem lookupE_nil (n : String) : lookupE [] n = none := rfl

@[simp]
theorem lookupE_cons (m : String) (e : FSEntry) (rest : Entries) (n : String) :
    lookupE ((m, e) :: rest) n = if m = n then some e else lookupE rest n := rfl

@[simp]
theorem lookupE_insertE_self (ts : Entries) (n : String) (e : FSEntry) :
    lookupE (insertE ts n e) n = some e := by
  induction ts with
  | nil => simp [insertE, lookupE]
  | cons hd tl ih =>
      obtain ⟨m, x⟩ := hd
      by_cases hmn : m = n <;> simp [insertE, lookupE, hmn, ih]

theorem lookupE_insertE_ne (ts : Entries) (n : String) (e : FSEntry)
    (m : String) (hne : m ≠ n) : lookupE (insertE ts n e) m = lookupE ts m := by
  induction ts with
  | nil => simp [insertE, lookupE, Ne.symm hne]
  | cons hd tl ih =>
      obtain ⟨k, x⟩ := hd
      by_cases hkn : k = n
      · subst hkn
        simp [insertE, lookupE, Ne.symm hne]
      · simp [insertE, lookupE, hkn, ih]

theorem insertE_lookup_eq (ts : Entries) (n : String) (e : FSEntry)
    (h : lookupE ts n = some e) : insertE ts n e = ts := by
  induction ts with
  | nil => simp [lookupE] at h
  | cons hd tl ih =>
      obtain ⟨m, x⟩ := hd
      by_cases hmn : m = n
      · subst hmn
        simp [lookupE] at h
        simp [insertE, h]
      · simp [lookupE, hmn] at h
        simp [insertE, hmn, ih h]

theorem except_bind_ok {ε α β : Type} (a : α) (f : α → Except ε β) :
    (Except.ok a >>= f) = f a := rfl

theorem except_bind_error {ε α β : Type} (e : ε) (f : α → Except ε β) :
    ((Except.error e : Except ε α) >>= f) = Except.error e := rfl

theorem sync_all_unfold (ss ts : Entries) (c : List String) :
    sync_all ss ts c =
      sync_directory ss ts c "tasks" >>= fun s1 =>
      sync_file ss s1.1 s1.2 "justfile" >>= fun s2 =>
      sync_file ss s2.1 s2.2 ".gitignore" >>= fun s3 =>
      sync_file ss s3.1 s3.2 ".python-version" >>= fun s4 =>
      pure s4 := rfl

theorem sync_file_src_absent (ss ts : Entries) (c : List String) (n : String)
    (hs : lookupE ss n = none) : sync_file ss ts c n = .ok (ts, c) := by
  simp [sync_file, hs]

theorem sync_file_src_dir (ss ts : Entries) (c : List String) (n : String)
    (d : Entries) (hs : lookupE ss n = some (.dir d)) :
    sync_file ss ts c n = .error () := by
  cases ht : lookupE ts n with
  | none => simp [sync_file, hs, ht]
  | some te => simp [sync_file, hs, ht]

theorem sync_file_new (ss ts : Entries) (c : List String) (n : String)
    (sb : List Nat) (sm : Nat) (hs : lookupE ss n = some (.file sb sm))
    (ht : lookupE ts n = none) :
    sync_file ss ts c n = .ok (insertE ts n (.file sb sm), c ++ [n]) := by
  simp [sync_file, hs, ht]

theorem sync_file_same (ss ts : Entries) (c : List String) (n : String)
    (sb : List Nat) (sm tm : Nat) (hs : lookupE ss n = some (.file sb sm))
    (ht : lookupE ts n = some (.file sb tm)) :
    sync_file ss ts c n = .ok (ts, c) := by
  simp [sync_file, hs, ht]

theorem sync_file_diff (ss ts : Entries) (c : List String) (n : String)
    (sb tb : List Nat) (sm tm : Nat) (hs : lookupE ss n = some (.file sb sm))
    (ht : lookupE ts n = some (.file tb tm)) (hb : sb ≠ tb) :
    sync_file ss ts c n = .ok (insertE ts n (.file sb sm), c ++ [n]) := by
  simp [sync_file, hs, ht, hb]

theorem sync_file_tgt_dir (ss ts : Entries) (c : List String) (n : String)
    (sb : List Nat) (sm : Nat) (td : Entries)
    (hs : lookupE ss n = some (.file sb sm))
    (ht : lookupE ts n = some (.dir td)) :
    sync_file ss ts c n = .error () := by
  simp [sync_file, hs, ht]

theorem sync_file_ok_cases (ss ts : Entries) (c : List String) (n : String)
    (ts' : Entries) (c' : List String)
    (h : sync_file ss ts c n = .ok (ts', c')) :
    (lookupE ss n = none ∧ ts' = ts ∧ c' = c) ∨
    (∃ sb sm tm, lookupE ss n = some (.file sb sm) ∧
        lookupE ts n = some (.file sb tm) ∧ ts' = ts ∧ c' = c) ∨
    (∃ sb sm, lookupE ss n = some (.file sb sm) ∧
        ts' = insertE ts n (.file sb sm) ∧ c' = c ++ [n]) := by
  cases hs : lookupE ss n with
  | none =>
      rw [sync_file_src_absent ss ts c n hs] at h
      simp only [Except.ok.injEq, Prod.mk.injEq] at h
      exact Or.inl ⟨rfl, h.1.symm, h.2.symm⟩
  | some se =>
      cases se with
      | dir d =>
          rw [sync_file_src_dir ss ts c n d hs] at h
          exact absurd h (by simp)
      | file sb sm =>
          cases ht : lookupE ts n with
          | none =>
              rw [sync_file_new ss ts c n sb sm hs ht] at h
              simp only [Except.ok.injEq, Prod.mk.injEq] at h
              exact Or.inr (Or.inr ⟨sb, sm, rfl, h.1.symm, h.2.symm⟩)
          | some te =>
              cases te with
              | dir td =>
                  rw [sync_file_tgt_dir ss ts c n sb sm td hs ht] at h
                  exact absurd h (by simp)
              | file tb tm =>
                  by_cases hb : sb = tb
                  · subst hb
                    rw [sync_file_same ss ts c n sb sm tm hs ht] at h
                    simp only [Except.ok.injEq, Prod.mk.injEq] at h
                    exact Or.inr (Or.inl ⟨sb, sm, tm, rfl, rfl, h.1.symm, h.2.symm⟩)
                  · rw [sync_file_diff ss ts c n sb tb sm tm hs ht hb] at h
                    simp only [Except.ok.injEq, Prod.mk.injEq] at h
                    exact Or.inr (Or.inr ⟨sb, sm, rfl, h.1.symm, h.2.symm⟩)

theorem sync_file_ok_other_name (ss ts : Entries) (c : List String) (n : String)
    (ts' : Entries) (c' : List String)
    (h : sync_file ss ts c n = .ok (ts', c'))
    (m : String) (hm : m ≠ n) : lookupE ts' m = lookupE ts m := by
  rcases sync_file_ok_cases ss ts c n ts' c' h with
    ⟨_, hts, _⟩ | ⟨sb, sm, tm, _, _, hts, _⟩ | ⟨sb, sm, _, hts, _⟩
  · rw [hts]
  · rw [hts]
  · rw [hts, lookupE_insertE_ne ts n (.file sb sm) m hm]

theorem sync_file_ok_content (ss ts : Entries) (c : List String) (n : String)
    (ts' : Entries) (c' : List String)
    (h : sync_file ss ts c n = .ok (ts', c'))
    (sb : List Nat) (sm : Nat) (hs : lookupE ss n = some (.file sb sm)) :
    ∃ tm, lookupE ts' n = some (.file sb tm) := by
  rcases sync_file_ok_cases ss ts c n ts' c' h with
    ⟨hnone, _, _⟩ | ⟨sb2, sm2, tm, hs2, ht2, hts, _⟩ | ⟨sb2, sm2, hs2, hts, _⟩
  · rw [hs] at hnone; exact absurd hnone (by simp)
  · rw [hs] at hs2
    injection hs2 with hse
    injection hse with hb _
    refine ⟨tm, ?_⟩
    rw [hts, ht2, hb]
  · rw [hs] at hs2
    injection hs2 with hse
    injection hse with hb hm
    refine ⟨sm2, ?_⟩
    rw [hts, hb, lookupE_insertE_self]

theorem sync_directory_src_absent (ss ts : Entries) (c : List String) (n : String)
    (hs : lookupE ss n = none) : sync_directory ss ts c n = .ok (ts, c) := by
  simp [sync_directory, hs]

theorem sync_directory_tgt_file (ss ts : Entries) (c : List String) (n : String)
    (se : FSEntry) (b : List Nat) (m : Nat)
    (hs : lookupE ss n = some se) (ht : lookupE ts n = some (.file b m)) :
    sync_directory ss ts c n = .error () := by
  simp [sync_directory, hs, ht]

theorem sync_directory_copy_none (ss ts : Entries) (c : List String) (n : String)
    (d : Entries) (hs : lookupE ss n = some (.dir d)) (ht : lookupE ts n = none) :
    sync_directory ss ts c n = .ok (insertE ts n (.dir d), c ++ [dirRecord n d]) := by
  simp [sync_directory, hs, ht]

theorem sync_directory_copy_dir (ss ts : Entries) (c : List String) (n : String)
    (d td : Entries) (hs : lookupE ss n = some (.dir d))
    (ht : lookupE ts n = some (.dir td)) :
    sync_directory ss ts c n = .ok (insertE ts n (.dir d), c ++ [dirRecord n d]) := by
  simp [sync_directory, hs, ht]

theorem sync_directory_ok_cases (ss ts : Entries) (c : List String) (n : String)
    (ts' : Entries) (c' : List String)
    (h : sync_directory ss ts c n = .ok (ts', c')) :
    (lookupE ss n = none ∧ ts' = ts ∧ c' = c) ∨
    (∃ d, lookupE ss n = some (.dir d) ∧
        ts' = insertE ts n (.dir d) ∧ c' = c ++ [dirRecord n d]) := by
  cases hs : lookupE ss n with
  | none =>
      rw [sync_directory_src_absent ss ts c n hs] at h
      simp only [Except.ok.injEq, Prod.mk.injEq] at h
      exact Or.inl ⟨rfl, h.1.symm, h.2.symm⟩
  | some se =>
      cases ht : lookupE ts n with
      | some te =>
          cases te with
          | file b m =>
              rw [sync_directory_tgt_file ss ts c n se b m hs ht] at h
              exact absurd h (by simp)
          | dir td =>
              cases se with
              | file b2 m2 => simp [sync_directory, hs, ht] at h
              | dir d =>
                  rw [sync_directory_copy_dir ss ts c n d td hs ht] at h
                  simp only [Except.ok.injEq, Prod.mk.injEq] at h
                  exact Or.inr ⟨d, rfl, h.1.symm, h.2.symm⟩
      | none =>
          cases se with
          | file b2 m2 => simp [sync_directory, hs, ht] at h
          | dir d =>
              rw [sync_directory_copy_none ss ts c n d hs ht] at h
              simp only [Except.ok.injEq, Prod.mk.injEq] at h
              exact Or.inr ⟨d, rfl, h.1.symm, h.2.symm⟩

theorem sync_directory_rerun (ss ts : Entries) (c : List String) (n : String)
    (d : Entries) (hs : lookupE ss n = some (.dir d))
    (ht : lookupE ts n = some (.dir d)) :
    sync_directory ss ts c n = .ok (ts, c ++ [dirRecord n d]) := by
  rw [sync_directory_copy_dir ss ts c n d d hs ht, insertE_lookup_eq ts n (.dir d) ht]

theorem sync_directory_ok_other_name (ss ts : Entries) (c : List String) (n : String)
    (ts' : Entries) (c' : List String)
    (h : sync_directory ss ts c n = .ok (ts', c'))
    (m : String) (hm : m ≠ n) : lookupE ts' m = lookupE ts m := by
  rcases sync_directory_ok_cases ss ts c n ts' c' h with ⟨_, hts, _⟩ | ⟨d, _, hts, _⟩
  · rw [hts]
  · rw [hts, lookupE_insertE_ne ts n (.dir d) m hm]

theorem sync_all_ok_elim (ss ts : Entries) (c : List String) (r : Entries × List String)
    (h : sync_all ss ts c = .ok r) :
    ∃ ta ca tb cb tc cc, sync_directory ss ts c "tasks" = .ok (ta, ca) ∧
      sync_file ss ta ca "justfile" = .ok (tb, cb) ∧
      sync_file ss tb cb ".gitignore" = .ok (tc, cc) ∧
      sync_file ss tc cc ".python-version" = .ok r := by
  rw [sync_all_unfold] at h
  cases hd : sync_directory ss ts c "tasks" with
  | error e => rw [hd] at h; simp [except_bind_error] at h
  | ok s1 =>
      obtain ⟨ta, ca⟩ := s1
      rw [hd] at h
      simp only [except_bind_ok] at h
      cases hf1 : sync_file ss ta ca "justfile" with
      | error e => rw [hf1] at h; simp [except_bind_error] at h
      | ok s2 =>
          obtain ⟨tb, cb⟩ := s2
          rw [hf1] at h
          simp only [except_bind_ok] at h
          cases hf2 : sync_file ss tb cb ".gitignore" with
          | error e => rw [hf2] at h; simp [except_bind_error] at h
          | ok s3 =>
              obtain ⟨tc, cc⟩ := s3
              rw [hf2] at h
              simp only [except_bind_ok] at h
              cases hf3 : sync_file ss tc cc ".python-version" with
              | error e => rw [hf3] at h; simp [except_bind_error] at h
              | ok s4 =>
                  rw [hf3] at h
                  simp only [except_bind_ok] at h
                  have hr : s4 = r := by
                    injection h
                  subst hr
                  exact ⟨ta, ca, tb, cb, tc, cc, rfl, hf1, hf2, hf3⟩

theorem sync_all_ok_intro (ss ts : Entries) (c : List String)
    (ta tb tc : Entries) (ca cb cc : List String) (r : Entries × List String)
    (h1 : sync_directory ss ts c "tasks" = .ok (ta, ca))
    (h2 : sync_file ss ta ca "justfile" = .ok (tb, cb))
    (h3 : sync_file ss tb cb ".gitignore" = .ok (tc, cc))
    (h4 : sync_file ss tc cc ".python-version" = .ok r) :
    sync_all ss ts c = .ok r := by
  simp only [sync_all_unfold, except_bind_ok, h1, h2, h3, h4]
  rfl

theorem sync_file_second_run (ss tsa tsb : Entries) (ca cb : List String) (n : String)
    (h : sync_file ss tsa ca n = .ok (tsb, cb))
    (ts1 : Entries) (hpres : lookupE ts1 n = lookupE tsb n)
    (X : List String) :
    sync_file ss ts1 X n = .ok (ts1, X) := by
  rcases sync_file_ok_cases ss tsa ca n tsb cb h with
    ⟨hnone, _, _⟩ | ⟨sb, sm, tm, hs, ht, hts, _⟩ | ⟨sb, sm, hs, hts, _⟩
  · exact sync_file_src_absent ss ts1 X n hnone
  · refine sync_file_same ss ts1 X n sb sm tm hs ?_
    rw [hpres, hts, ht]
  · refine sync_file_same ss ts1 X n sb sm sm hs ?_
    rw [hpres, hts, lookupE_insertE_self]

theorem validate_paths_none_shapes (src? tgt? : Option FSEntry)
    (h : validate_paths src? tgt? = none) :
    ∃ ss ts, src? = some (.dir ss) ∧ tgt? = some (.dir ts) ∧
      (lookupE ss "justfile").isSome = true ∧ (lookupE ts ".git").isSome = true := by
  rcases src? with _ | se
  · simp [validate_paths] at h
  · rcases se with ⟨b, m⟩ | ss
    · simp [validate_paths] at h
    · rcases hj : lookupE ss "justfile" with _ | je
      · simp [validate_paths, hj] at h
      · rcases tgt? with _ | te
        · simp [validate_paths, hj] at h
        · rcases te with ⟨b2, m2⟩ | ts
          · simp [validate_paths, hj] at h
          · rcases hg : lookupE ts ".git" with _ | ge
            · simp [validate_paths, hj, hg] at h
            · exact ⟨ss, ts, rfl, rfl, by simp [hj], by simp [hg]⟩

theorem run_validation_fails (src? tgt? : Option FSEntry) (dry g : Bool)
    (k : SyncErrorKind) (hv : validate_paths src? tgt? = some k) :
    run src? tgt? dry g = .ok (tgt?, [], false) := by
  simp [run, hv]

theorem run_valid_ok (ss ts ts' : Entries) (cs : List String) (dry g : Bool)
    (hv : validate_paths (some (.dir ss)) (some (.dir ts)) = none)
    (hsync : sync_all ss ts [] = .ok (ts', cs)) :
    run (some (.dir ss)) (some (.dir ts)) dry g =
      .ok (some (.dir ts'), cs, (git_commit cs dry g).success) := by
  simp [run, hv, hsync]

theorem run_valid_error (ss ts : Entries) (dry g : Bool) (e : Unit)
    (hv : validate_paths (some (.dir ss)) (some (.dir ts)) = none)
    (hsync : sync_all ss ts [] = .error e) :
    run (some (.dir ss)) (some (.dir ts)) dry g = .error e := by
  simp [run, hv, hsync]

theorem string_shape_helper (i : String) :
    "Sync with latest project template\n\nSynced the following files and directories:\n" ++ i ++
      "\n\nThis commit updates the project infrastructure to match the latest\ntemplate version, including task definitions, configuration files,\nand development tools." =
    "Sync with latest project template" ++ "\n\n" ++
      "Synced the following files and directories:\n" ++ i ++ "\n\n" ++
      "This commit updates the project infrastructure to match the latest\ntemplate version, including task definitions, configuration files,\nand development tools." := by
  conv_lhs => rw [String.append_assoc]
  conv_rhs => rw [String.append_assoc, String.append_assoc]
  rfl

/-- Claim C1, counterexample.  The claim states that for every valid
(source, target) pair a second `sync_all` run with an unchanged source
appends no ChangeRecords.  On the concrete valid pair `srcA` / `tgtA` the
first run records two changes, and the second run appends the directory
record for `tasks` again, because `sync_directory` deletes, re-copies and
records unconditionally whenever the source directory exists. -/
theorem sync_all_not_idempotent_cex :
    validate_paths (some (.dir srcA)) (some (.dir tgtA)) = none ∧
    sync_all srcA tgtA [] =
      .ok (tgtA1, ["tasks/ (directory, 1 items)", "justfile"]) ∧
    sync_all srcA tgtA1 ["tasks/ (directory, 1 items)", "justfile"] =
      .ok (tgtA1,
        ["tasks/ (directory, 1 items)", "justfile", "tasks/ (directory, 1 items)"]) :=
  ⟨rfl, rfl, rfl⟩

/-- Claim C1, amended.  Re-running `sync_all` against an unchanged source
leaves the target tree unchanged and appends no ChangeRecords for file
targets, but a directory target whose source subtree exists appends a
fresh ChangeRecord on every run (directory sync performs no change
detection); the records appended by the second run are therefore exactly
`secondRunRecords`, empty iff the source has no `tasks` entry. -/
theorem sync_all_second_run_amended (ss ts ts1 : Entries) (c1 : List String)
    (hv : validate_paths (some (.dir ss)) (some (.dir ts)) = none)
    (h1 : sync_all ss ts [] = .ok (ts1, c1)) :
    sync_all ss ts1 c1 = .ok (ts1, c1 ++ secondRunRecords ss) ∧
    (secondRunRecords ss = [] ↔ lookupE ss "tasks" = none) := by
  obtain ⟨ta, ca, tb, cb, tc, cc, hd, hf1, hf2, hf3⟩ :=
    sync_all_ok_elim ss ts [] (ts1, c1) h1
  have hpj : lookupE ts1 "justfile" = lookupE tb "justfile" := by
    rw [sync_file_ok_other_name ss tc cc ".python-version" ts1 c1 hf3 "justfile" (by decide),
        sync_file_ok_other_name ss tb cb ".gitignore" tc cc hf2 "justfile" (by decide)]
  have hpg : lookupE ts1 ".gitignore" = lookupE tc ".gitignore" :=
    sync_file_ok_other_name ss tc cc ".python-version" ts1 c1 hf3 ".gitignore" (by decide)
  rcases sync_directory_ok_cases ss ts [] "tasks" ta ca hd with
    ⟨hnone, hts, hca⟩ | ⟨d, hdir, hts, hca⟩
  · have hrr : secondRunRecords ss = [] := by simp [secondRunRecords, hnone]
    constructor
    · refine sync_all_ok_intro ss ts1 c1 ts1 ts1 ts1
        (c1 ++ secondRunRecords ss) (c1 ++ secondRunRecords ss)
        (c1 ++ secondRunRecords ss) (ts1, c1 ++ secondRunRecords ss) ?_ ?_ ?_ ?_
      · rw [hrr, List.append_nil]
        exact sync_directory_src_absent ss ts1 c1 "tasks" hnone
      · exact sync_file_second_run ss ta tb ca cb "justfile" hf1 ts1 hpj _
      · exact sync_file_second_run ss tb tc cb cc ".gitignore" hf2 ts1 hpg _
      · exact sync_file_second_run ss tc ts1 cc c1 ".python-version" hf3 ts1 rfl _
    · simp [hrr, hnone]
  · have hrr : secondRunRecords ss = [dirRecord "tasks" d] := by
      simp [secondRunRecords, hdir]
    have hta : lookupE ta "tasks" = some (.dir d) := by
      rw [hts]
      exact lookupE_insertE_self ts "tasks" (.dir d)
    have htask1 : lookupE ts1 "tasks" = some (.dir d) := by
      rw [sync_file_ok_other_name ss tc cc ".python-version" ts1 c1 hf3 "tasks" (by decide),
          sync_file_ok_other_name ss tb cb ".gitignore" tc cc hf2 "tasks" (by decide),
          sync_file_ok_other_name ss ta ca "justfile" tb cb hf1 "tasks" (by decide)]
      exact hta
    constructor
    · refine sync_all_ok_intro ss ts1 c1 ts1 ts1 ts1
        (c1 ++ secondRunRecords ss) (c1 ++ secondRunRecords ss)
        (c1 ++ secondRunRecords ss) (ts1, c1 ++ secondRunRecords ss) ?_ ?_ ?_ ?_
      · rw [hrr]
        exact sync_directory_rerun ss ts1 c1 "tasks" d hdir htask1
      · exact sync_file_second_run ss ta tb ca cb "justfile" hf1 ts1 hpj _
      · exact sync_file_second_run ss tb tc cb cc ".gitignore" hf2 ts1 hpg _
      · exact sync_file_second_run ss tc ts1 cc c1 ".python-version" hf3 ts1 rfl _
    · rw [hrr]
      simp [hdir]

/-- Witness for the amended C1 theorem at the concrete pair `srcA` / `tgtA`. -/
theorem sync_all_second_run_amended_witness :
    sync_all srcA tgtA1 ["tasks/ (directory, 1 items)", "justfile"] =
      .ok (tgtA1,
        ["tasks/ (directory, 1 items)", "justfile"] ++ secondRunRecords srcA) ∧
    (secondRunRecords srcA = [] ↔ lookupE srcA "tasks" = none) :=
  sync_all_second_run_amended srcA tgtA tgtA1
    ["tasks/ (directory, 1 items)", "justfile"] rfl rfl

/-- Claim C2: for a directory SyncTarget whose source subtree exists,
a completed `sync_directory` leaves at the target path a byte-identical
copy of the source subtree (so every entry present only in the prior
target copy is gone and every source entry is present), touches no other
name, and appends exactly one ChangeRecord carrying the count of all
copied entries; if the source subtree is absent, nothing changes and no
record is appended. -/
theorem sync_directory_replace_postcondition (ss ts : Entries) (c : List String)
    (n : String) :
    (∀ d ts' c', lookupE ss n = some (.dir d) →
        sync_directory ss ts c n = .ok (ts', c') →
        lookupE ts' n = some (.dir d) ∧
        (∀ e', lookupE ts' n = some e' → ∀ p, entryAt e' p = entryAt (.dir d) p) ∧
        (∀ m, m ≠ n → lookupE ts' m = lookupE ts m) ∧
        c' = c ++ [n ++ "/ (directory, " ++ toString (rglobCount (.dir d)) ++ " items)"]) ∧
    (lookupE ss n = none → sync_directory ss ts c n = .ok (ts, c)) := by
  constructor
  · intro d ts' c' hs hok
    rcases sync_directory_ok_cases ss ts c n ts' c' hok with
      ⟨hnone, _, _⟩ | ⟨d2, hdir, hts, hc⟩
    · rw [hs] at hnone
      exact absurd hnone (by simp)
    · rw [hs] at hdir
      injection hdir with hdd
      injection hdd with hd2
      subst hd2
      refine ⟨?_, ?_, ?_, ?_⟩
      · rw [hts]
        exact lookupE_insertE_self ts n (.dir d)
      · intro e' he' p
        rw [hts, lookupE_insertE_self] at he'
        injection he' with he''
        rw [← he'']
      · intro m hm
        rw [hts]
        exact lookupE_insertE_ne ts n (.dir d) m hm
      · rw [hc]
        rfl
  · intro hs
    exact sync_directory_src_absent ss ts c n hs

/-- Witness for C2: syncing the `tasks` directory of `srcA` onto the fresh
target `tgtA` yields exactly the source subtree at `tasks` plus the single
ChangeRecord with its item count. -/
theorem sync_directory_replace_postcondition_witness :
    lookupE [(".git", FSEntry.dir []),
        ("tasks", FSEntry.dir [("test.just", FSEntry.file [116] 0)])] "tasks" =
      some (.dir [("test.just", FSEntry.file [116] 0)]) ∧
    ["tasks/ (directory, 1 items)"] =
      [] ++ ["tasks" ++ "/ (directory, " ++
        toString (rglobCount (.dir [("test.just", FSEntry.file [116] 0)])) ++ " items)"] := by
  have h := (sync_directory_replace_postcondition srcA tgtA [] "tasks").1
    [("test.just", FSEntry.file [116] 0)]
    [(".git", FSEntry.dir []), ("tasks", FSEntry.dir [("test.just", FSEntry.file [116] 0)])]
    ["tasks/ (directory, 1 items)"] rfl rfl
  exact ⟨h.1, h.2.2.2⟩

/-- Claim C3: `validate_paths` agrees with the specification contract: it
succeeds iff the six checks of section 4.1 all pass, and it returns
exactly the first violated check in the fixed fail-fast order (the model
is a pure function, so validation performs no mutation by construction). -/
theorem validate_paths_iff_spec_checks (src? tgt? : Option FSEntry) :
    validate_paths src? tgt? = spec_first_failure src? tgt? ∧
    (validate_paths src? tgt? = none ↔
      specExists src? = true ∧ specIsDir src? = true ∧
      specSourceHasTaskRunnerConfig src? = true ∧ specExists tgt? = true ∧
      specIsDir tgt? = true ∧ specTargetHasVCSMetadata tgt? = true) := by
  rcases src? with _ | se
  · simp [validate_paths, spec_first_failure, specExists]
  · rcases se with ⟨b, m⟩ | ss
    · simp [validate_paths, spec_first_failure, specExists, specIsDir]
    · rcases hj : lookupE ss "justfile" with _ | je
      · simp [validate_paths, spec_first_failure, specExists, specIsDir,
              specSourceHasTaskRunnerConfig, hj]
      · rcases tgt? with _ | te
        · simp [validate_paths, spec_first_failure, specExists, specIsDir,
                specSourceHasTaskRunnerConfig, hj]
        · rcases te with ⟨b2, m2⟩ | ts
          · simp [validate_paths, spec_first_failure, specExists, specIsDir,
                  specSourceHasTaskRunnerConfig, specTargetHasVCSMetadata, hj]
          · rcases hg : lookupE ts ".git" with _ | ge <;>
              simp [validate_paths, spec_first_failure, specExists, specIsDir,
                    specSourceHasTaskRunnerConfig, specTargetHasVCSMetadata, hj, hg]

/-- Claim C4: file sync is content-driven.  With an existing source file:
a missing target file is unconditionally a change (copy plus record); a
target file with identical bytes is skipped with no write and no record,
whatever its modification time; a target file with different bytes is
copied and recorded. -/
theorem sync_file_content_driven (ss ts : Entries) (c : List String) (n : String)
    (sb : List Nat) (sm : Nat) (hs : lookupE ss n = some (.file sb sm)) :
    (lookupE ts n = none →
        sync_file ss ts c n = .ok (insertE ts n (.file sb sm), c ++ [n])) ∧
    (∀ tm, lookupE ts n = some (.file sb tm) → sync_file ss ts c n = .ok (ts, c)) ∧
    (∀ tb tm, lookupE ts n = some (.file tb tm) → tb ≠ sb →
        sync_file ss ts c n = .ok (insertE ts n (.file sb sm), c ++ [n])) :=
  ⟨fun ht => sync_file_new ss ts c n sb sm hs ht,
   fun tm ht => sync_file_same ss ts c n sb sm tm hs ht,
   fun tb tm ht hne => sync_file_diff ss ts c n sb tb sm tm hs ht (Ne.symm hne)⟩

/-- Witness for C4: identical bytes with a different modification time
produce no write and no record. -/
theorem sync_file_content_driven_witness :
    sync_file [("a", FSEntry.file [1] 0)] [("a", FSEntry.file [1] 5)] [] "a" =
      .ok ([("a", FSEntry.file [1] 5)], []) :=
  (sync_file_content_driven [("a", FSEntry.file [1] 0)] [("a", FSEntry.file [1] 5)]
    [] "a" [1] 0 rfl).2.1 5 rfl

/-- Claim C5: the return contract of `run`.  When `run` returns: success
implies validation passed and the commit (or dry-run preview) succeeded; a
validation failure yields failure with the target untouched and no
records; a failed commit yields failure; and after successful validation
the returned target tree is exactly the `sync_all` output, so on a commit
failure the applied file changes remain on disk. -/
theorem run_return_contract (src? tgt? : Option FSEntry) (dry gitOk : Bool)
    (tgtF : Option FSEntry) (ch : List String) (s : Bool)
    (h : run src? tgt? dry gitOk = .ok (tgtF, ch, s)) :
    (s = true → validate_paths src? tgt? = none ∧
        (git_commit ch dry gitOk).success = true) ∧
    (validate_paths src? tgt? ≠ none → s = false ∧ tgtF = tgt? ∧ ch = []) ∧
    ((git_commit ch dry gitOk).success = false → s = false) ∧
    (validate_paths src? tgt? = none →
      ∀ ss ts, src? = some (.dir ss) → tgt? = some (.dir ts) →
        ∃ ts', sync_all ss ts [] = .ok (ts', ch) ∧ tgtF = some (.dir ts')) := by
  cases hv : validate_paths src? tgt? with
  | some k =>
      rw [run_validation_fails src? tgt? dry gitOk k hv] at h
      simp only [Except.ok.injEq, Prod.mk.injEq] at h
      obtain ⟨h1, h2, h3⟩ := h
      refine ⟨?_, ?_, ?_, ?_⟩
      · intro hst
        rw [← h3] at hst
        exact absurd hst (by simp)
      · intro _
        exact ⟨h3.symm, h1.symm, h2.symm⟩
      · intro _
        exact h3.symm
      · intro hv0
        exact absurd hv0 (by simp)
  | none =>
      obtain ⟨ss0, ts0, hsrc, htgt, _, _⟩ := validate_paths_none_shapes src? tgt? hv
      subst hsrc
      subst htgt
      cases hsync : sync_all ss0 ts0 [] with
      | error e =>
          rw [run_valid_error ss0 ts0 dry gitOk e hv hsync] at h
          exact absurd h (by simp)
      | ok st =>
          obtain ⟨ts', cs⟩ := st
          rw [run_valid_ok ss0 ts0 ts' cs dry gitOk hv hsync] at h
          simp only [Except.ok.injEq, Prod.mk.injEq] at h
          obtain ⟨hF, hch, hsc⟩ := h
          refine ⟨?_, ?_, ?_, ?_⟩
          · intro hst
            refine ⟨rfl, ?_⟩
            rw [← hch, hsc]
            exact hst
          · intro hne
            exact absurd rfl hne
          · intro hgc
            rw [← hsc, hch]
            exact hgc
          · intro _ ss ts hss hts
            injection hss with hss'
            injection hss' with hss''
            injection hts with hts'
            injection hts' with hts''
            subst hss''
            subst hts''
            rw [hch] at hsync
            exact ⟨ts', hsync, hF.symm⟩

/-- Witness for C5 at a concrete validation failure: a missing source path
makes `run` return failure with the target untouched and no records. -/
theorem run_return_contract_witness :
    false = false ∧ (none : Option FSEntry) = none ∧ ([] : List String) = [] :=
  (run_return_contract none none false false none [] false rfl).2.1 (by decide)

/-- Claim C6: with an empty ChangeRecord list, `git_commit` returns false
without invoking the version-control tool and without printing a preview,
in dry-run and non-dry-run mode alike. -/
theorem git_commit_skips_empty (dry gitOk : Bool) :
    git_commit [] dry gitOk = ⟨false, none, []⟩ := rfl

/-- Claim C7: with dry-run set and a nonempty ChangeRecord list,
`git_commit` prints the preview lines and reports success without ever
invoking the commit command; and the dry-run flag has no effect on the
target tree or the ChangeRecord list produced by `run` (file mutation is
identical with and without it). -/
theorem dry_run_preview_and_mutation :
    (∀ (ch : List String) (gitOk : Bool), ch ≠ [] →
        git_commit ch true gitOk =
          ⟨true, none,
            "DRY RUN: Would create commit with the following changes:" ::
              ch.map (fun c => "  • " ++ c)⟩) ∧
    (∀ (src? tgt? : Option FSEntry) (g g' : Bool),
        Except.map (fun o => (o.1, o.2.1)) (run src? tgt? true g) =
          Except.map (fun o => (o.1, o.2.1)) (run src? tgt? false g')) := by
  constructor
  · intro ch gitOk hne
    cases ch with
    | nil => exact absurd rfl hne
    | cons a as => rfl
  · intro src? tgt? g g'
    cases hv : validate_paths src? tgt? with
    | some k =>
        rw [run_validation_fails src? tgt? true g k hv,
            run_validation_fails src? tgt? false g' k hv]
    | none =>
        obtain ⟨ss0, ts0, hsrc, htgt, _, _⟩ := validate_paths_none_shapes src? tgt? hv
        subst hsrc
        subst htgt
        cases hsync : sync_all ss0 ts0 [] with
        | error e =>
            rw [run_valid_error ss0 ts0 true g e hv hsync,
                run_valid_error ss0 ts0 false g' e hv hsync]
        | ok st =>
            obtain ⟨ts', cs⟩ := st
            rw [run_valid_ok ss0 ts0 ts' cs true g hv hsync,
                run_valid_ok ss0 ts0 ts' cs false g' hv hsync]
            exact rfl

/-- Witness for C7: the concrete dry-run preview for one record. -/
theorem dry_run_preview_and_mutation_witness :
    git_commit ["justfile"] true true =
      ⟨true, none,
        ["DRY RUN: Would create commit with the following changes:", "  • justfile"]⟩ :=
  dry_run_preview_and_mutation.1 ["justfile"] true (by decide)

/-- Claim C8, counterexample.  The claim describes the commit message as
exactly summary, blank line, bulleted list, fixed paragraph.  The actual
message built for the single record `justfile` carries the header line
`Synced the following files and directories:` between the blank line and
the bullets, so no reading of the claimed shape matches: the text that the
claim requires directly after the blank line (the first bullet) is not a
prefix of the real message. -/
theorem commit_message_shape_cex :
    commit_message ["justfile"] =
      "Sync with latest project template\n\nSynced the following files and directories:\n  • justfile\n\nThis commit updates the project infrastructure to match the latest\ntemplate version, including task definitions, configuration files,\nand development tools." ∧
    List.isPrefixOf ("Sync with latest project template\n\n  • justfile").data
      (commit_message ["justfile"]).data = false :=
  ⟨rfl, by decide⟩

/-- Claim C8, amended: for a non-dry-run commit with a nonempty record
list, the message handed to the commit command is exactly the one-line
summary, a blank line, the header line
`Synced the following files and directories:`, the bulleted list of all
ChangeRecords (file paths as recorded; directory records carry a trailing
slash plus an item-count annotation), a blank line, and the fixed
explanatory paragraph. -/
theorem commit_message_shape_amended (changes : List String) (gitOk : Bool)
    (hne : changes ≠ []) :
    (git_commit changes false gitOk).invoked = some
      ("Sync with latest project template" ++ "\n\n" ++
        "Synced the following files and directories:\n" ++
        String.intercalate "\n" (changes.map (fun c => "  • " ++ c)) ++ "\n\n" ++
        "This commit updates the project infrastructure to match the latest\ntemplate version, including task definitions, configuration files,\nand development tools.") := by
  cases changes with
  | nil => exact absurd rfl hne
  | cons a as =>
      exact congrArg some
        (string_shape_helper (String.intercalate "\n" ((a :: as).map (fun c => "  • " ++ c))))

/-- Witness for the amended C8 theorem with one record. -/
theorem commit_message_shape_amended_witness :
    (git_commit ["justfile"] false true).invoked = some
      ("Sync with latest project template" ++ "\n\n" ++
        "Synced the following files and directories:\n" ++
        String.intercalate "\n" (["justfile"].map (fun c => "  • " ++ c)) ++ "\n\n" ++
        "This commit updates the project infrastructure to match the latest\ntemplate version, including task definitions, configuration files,\nand development tools.") :=
  commit_message_shape_amended ["justfile"] true (by decide)

/-- Claim C9, counterexample.  The claim says validation passes the
version-control check only when the target contains the `.git` metadata
directory.  The code only tests existence: a target whose `.git` entry is
a regular file passes validation in full. -/
theorem git_marker_file_passes_cex :
    validate_paths (some (.dir srcB)) (some (.dir tgtGitFile)) = none ∧
    lookupE tgtGitFile ".git" = some (.file [103] 0) :=
  ⟨rfl, rfl⟩

/-- Claim C9, amended: for a source passing its own checks, validation
succeeds iff the target has a `.git` entry of any kind, and a target with
no `.git` entry fails with exactly the TargetNotGitRepo kind. -/
theorem target_git_check_amended (ss ts : Entries)
    (hj : (lookupE ss "justfile").isSome = true) :
    (validate_paths (some (.dir ss)) (some (.dir ts)) = none ↔
        (lookupE ts ".git").isSome = true) ∧
    (validate_paths (some (.dir ss)) (some (.dir ts)) = some .targetNotGitRepo ↔
        lookupE ts ".git" = none) := by
  obtain ⟨je, hje⟩ := Option.isSome_iff_exists.mp hj
  cases hg : lookupE ts ".git" <;> simp [validate_paths, hje, hg]

/-- Witness for the amended C9 theorem: `srcB` used as its own target has
no `.git` entry, so validation fails with TargetNotGitRepo. -/
theorem target_git_check_amended_witness :
    (validate_paths (some (.dir srcB)) (some (.dir srcB)) = none ↔
        (lookupE srcB ".git").isSome = true) ∧
    (validate_paths (some (.dir srcB)) (some (.dir srcB)) = some .targetNotGitRepo ↔
        lookupE srcB ".git" = none) :=
  target_git_check_amended srcB srcB rfl

/-- Claim C10: when validation passes and the session accumulates no
ChangeRecords (every target already matches the source), `run` returns
false and the process exit code is 1, in dry-run mode as well, even though
the log reports the project as already up to date. -/
theorem in_sync_run_exit_code (ss ts ts' : Entries) (dry gitOk : Bool)
    (hv : validate_paths (some (.dir ss)) (some (.dir ts)) = none)
    (hsync : sync_all ss ts [] = .ok (ts', [])) :
    run (some (.dir ss)) (some (.dir ts)) dry gitOk =
      .ok (some (.dir ts'), [], false) ∧
    mainExitCode (some (.dir ss)) (some (.dir ts)) dry gitOk = .ok 1 ∧
    print_summary [] dry = ["No changes needed - project is already up to date!"] := by
  have hgc : (git_commit [] dry gitOk).success = false := rfl
  have hr := run_valid_ok ss ts ts' [] dry gitOk hv hsync
  rw [hgc] at hr
  refine ⟨hr, ?_, rfl⟩
  simp [mainExitCode, hr]

/-- Witness for C10 at the concrete in-sync pair `srcB` / `tgtB` in
dry-run mode. -/
theorem in_sync_run_exit_code_witness :
    run (some (.dir srcB)) (some (.dir tgtB)) true true =
      .ok (some (.dir tgtB), [], false) ∧
    mainExitCode (some (.dir srcB)) (some (.dir tgtB)) true true = .ok 1 ∧
    print_summary [] true = ["No changes needed - project is already up to date!"] :=
  in_sync_run_exit_code srcB tgtB tgtB true true rfl rfl

end SyncPT
